import Mathlib

/-!
# IEKM ESP32 pulse generator: embedding of `src/main.cpp`

The firmware keeps a handful of global variables (the pulse configuration, two
running flags, two stop flags and the log buffer), serves four HTTP handlers
(`/set`, `/start`, `/stop`, `/log`) and runs one FreeRTOS task (`pulseTask`) per
launched pulse train.

* The globals become the record `State`.  An `int` is an `Int`; the one place
  where the source does arithmetic on them, `period - width` at line 84, wraps
  to 32 bits.
* Each handler is a function from the globals (and the request) to the new
  globals plus the list of `request -> send` calls it makes, in order.  The
  result of `xTaskCreatePinnedToCore` is an input of the `/start` handler.
* `pulseTask` is given twice: as the list of events of a whole run, the value
  read from the stop flag at each loop check being an input, and as a step
  function between the points where the task can be suspended.  The two agree
  (`runSteps_eq_pulseTask`).
* `Sys` puts the globals and the live tasks together; a step of the system is
  one handled request or one step of one task.
* A delay is recorded with its argument in milliseconds, before
  `pdMS_TO_TICKS`; a log message is the text after printf expansion.
-/

namespace PulseGen

/-! ## Global state -/

/-- The global variables of `main.cpp` (lines 13-22 and 33). -/
structure State where
  pulse_width : Int
  pulse_period : Int
  n_pulses : Int
  gen_delay_ms : Int
  pulsing_myop : Bool
  pulsing_gen : Bool
  stop_myop : Bool
  stop_gen : Bool
  logBuffer : List Char
deriving DecidableEq

/-- The initial values of the globals (lines 13-22; `logBuffer` starts empty). -/
def initState : State :=
  { pulse_width := 100, pulse_period := 200, n_pulses := 10, gen_delay_ms := 50,
    pulsing_myop := false, pulsing_gen := false, stop_myop := false, stop_gen := false,
    logBuffer := [] }

/-- The four values of the pulse configuration, in declaration order. -/
def State.config (s : State) : Int × Int × Int × Int :=
  (s.pulse_width, s.pulse_period, s.n_pulses, s.gen_delay_ms)

def out_myopacer_pin : Int := 25

def out_generator_pin : Int := 26

/-! ## Logging (`addLog`, lines 37-54) -/

/-- The text that `addLog` appends for a message whose printf expansion is `msg`:
`vsnprintf` into `buf[256]` keeps at most 255 characters, and
`snprintf(line, 320, "%s\n", buf)` keeps at most 319 characters of `buf` followed
by a newline. -/
def logLine (msg : String) : List Char :=
  (msg.toList.take 255 ++ [Char.ofNat 10]).take 319

/-- The body of the critical section of `addLog`: append the line, and when the
buffer is then longer than 8192 keep `substring(length - 4096)`. -/
def addLog (logBuffer : List Char) (msg : String) : List Char :=
  let appended := logBuffer ++ logLine msg
  if appended.length > 8192 then appended.drop (appended.length - 4096) else appended

/-- The log buffer after a sequence of `addLog` calls. -/
def addLogs (logBuffer : List Char) (msgs : List String) : List Char :=
  msgs.foldl addLog logBuffer

/-- Everything that was appended by a sequence of `addLog` calls, untrimmed. -/
def appendedText (msgs : List String) : List Char :=
  (msgs.map logLine).flatten

/-- Printf `%d` of an `int`. -/
def fmtInt (x : Int) : String := toString x

/-! ## HTTP handlers -/

/-- One `request -> send(code, "text/plain", body)` call. -/
structure Response where
  code : Nat
  body : String
deriving DecidableEq

/-- What a handler leaves behind: the globals and the `send` calls it made, in
order. -/
structure HandlerResult where
  state : State
  responses : List Response
deriving DecidableEq

/-- The query parameters of a `/set` request.  A field is `some v` when
`hasParam` holds for it, `v` being the `int` that `value().toInt()` yields. -/
structure SetRequest where
  width : Option Int
  period : Option Int
  npulses : Option Int
  delay : Option Int
deriving DecidableEq

/-- Lines 181-188: the `width` block.  `Except.error` is the early `return`. -/
def setWidth (s : State) (request : SetRequest) : Except Response State :=
  match request.width with
  | some w => if w > 0 then .ok { s with pulse_width := w } else .error ⟨400, "Invalid width"⟩
  | none => .ok s

/-- Lines 190-197: the `period` block. -/
def setPeriod (s : State) (request : SetRequest) : Except Response State :=
  match request.period with
  | some p => if p > 0 then .ok { s with pulse_period := p } else .error ⟨400, "Invalid period"⟩
  | none => .ok s

/-- Lines 199-206: the `npulses` block. -/
def setNPulses (s : State) (request : SetRequest) : Except Response State :=
  match request.npulses with
  | some n =>
    if n > 0 then .ok { s with n_pulses := n } else .error ⟨400, "Invalid number of pulses"⟩
  | none => .ok s

/-- Lines 208-215: the `delay` block. -/
def setDelay (s : State) (request : SetRequest) : Except Response State :=
  match request.delay with
  | some d => if d > 0 then .ok { s with gen_delay_ms := d } else .error ⟨400, "Invalid delay"⟩
  | none => .ok s

/-- The line logged at line 220. -/
def rejectedMsg (s : State) : String :=
  "Rejected params: width (" ++ fmtInt s.pulse_width ++
    " ms) must be smaller than period (" ++ fmtInt s.pulse_period ++ " ms)."

/-- The line logged at line 225. -/
def updatedMsg (s : State) : String :=
  "Params updated:: width = " ++ fmtInt s.pulse_width ++ " ms, period = " ++
    fmtInt s.pulse_period ++ " ms, n pulses = " ++ fmtInt s.n_pulses ++
    ", delay = " ++ fmtInt s.gen_delay_ms ++ " ms."

/-- Lines 217-228: the width/period check on the globals, the log line and the
final response. -/
def setFinish (s : State) : HandlerResult :=
  if s.pulse_width ≥ s.pulse_period then
    { state := { s with logBuffer := addLog s.logBuffer (rejectedMsg s) },
      responses := [⟨400, "Error: pulse width must be less than pulse period."⟩] }
  else
    { state := { s with logBuffer := addLog s.logBuffer (updatedMsg s) },
      responses := [⟨200, "Parameters updated."⟩] }

/-- The `/set` handler (lines 180-229).  Each block writes its global as soon as
its own value passes `> 0`; a block that fails sends 400 and returns, leaving
the globals as the earlier blocks wrote them. -/
def setHandler (s : State) (request : SetRequest) : HandlerResult :=
  match setWidth s request with
  | .error r => ⟨s, [r]⟩
  | .ok s1 =>
    match setPeriod s1 request with
    | .error r => ⟨s1, [r]⟩
    | .ok s2 =>
      match setNPulses s2 request with
      | .error r => ⟨s2, [r]⟩
      | .ok s3 =>
        match setDelay s3 request with
        | .error r => ⟨s3, [r]⟩
        | .ok s4 => setFinish s4

/-- The four global flags that a `PulseParams` can point to. -/
inductive FlagRef where
  | pulsing_myop
  | pulsing_gen
  | stop_myop
  | stop_gen
deriving DecidableEq

/-- Reading through a flag pointer. -/
def State.readFlag (s : State) : FlagRef → Bool
  | .pulsing_myop => s.pulsing_myop
  | .pulsing_gen => s.pulsing_gen
  | .stop_myop => s.stop_myop
  | .stop_gen => s.stop_gen

/-- Writing through a flag pointer. -/
def State.writeFlag (s : State) (ref : FlagRef) (v : Bool) : State :=
  match ref with
  | .pulsing_myop => { s with pulsing_myop := v }
  | .pulsing_gen => { s with pulsing_gen := v }
  | .stop_myop => { s with stop_myop := v }
  | .stop_gen => { s with stop_gen := v }

/-- The struct `PulseParams` (lines 57-65). -/
structure PulseParams where
  pin : Int
  width : Int
  period : Int
  n_pulses : Int
  startDelay : Int
  stopFlag : FlagRef
  runningFlag : FlagRef
deriving DecidableEq

/-- What the `/start` handler leaves behind: the globals, the `send` calls, and
the `xTaskCreatePinnedToCore` calls it made, each with the `PulseParams` it
passed and whether the call returned `pdPASS`. -/
structure StartResult where
  state : State
  responses : List Response
  created : List (PulseParams × Bool)
deriving DecidableEq

/-- Lines 232-246: the Myopacer block of `/start`.  `myoPass` is whether
`xTaskCreatePinnedToCore` returns `pdPASS`; `Except.error` is the early `return`. -/
def startMyop (s : State) (myoPass : Bool) : Except StartResult StartResult :=
  if !s.pulsing_myop then
    let s1 := { s with stop_myop := false }
    let myo_pm : PulseParams :=
      ⟨out_myopacer_pin, s1.pulse_width, s1.pulse_period, s1.n_pulses, 0,
        .stop_myop, .pulsing_myop⟩
    if myoPass then
      .ok ⟨s1, [⟨200, "Started Myopacer pulsing."⟩], [(myo_pm, true)]⟩
    else
      .error ⟨{ s1 with logBuffer := addLog s1.logBuffer "Failed to create Myopacer Task" },
        [⟨500, "Failed to start Myopacer."⟩], [(myo_pm, false)]⟩
  else .ok ⟨s, [], []⟩

/-- Lines 248-262: the Generator block of `/start`, run after the Myopacer block
left `r`. -/
def startGen (r : StartResult) (genPass : Bool) : StartResult :=
  if !r.state.pulsing_gen then
    let s1 := { r.state with stop_gen := false }
    let gen_pm : PulseParams :=
      ⟨out_generator_pin, s1.pulse_width, s1.pulse_period, s1.n_pulses, s1.gen_delay_ms,
        .stop_gen, .pulsing_gen⟩
    if genPass then
      ⟨s1, r.responses ++ [⟨200, "Started Generator pulsing."⟩], r.created ++ [(gen_pm, true)]⟩
    else
      ⟨{ s1 with logBuffer := addLog s1.logBuffer "Failed to create Generator Task" },
        r.responses ++ [⟨500, "Failed to start Generator."⟩], r.created ++ [(gen_pm, false)]⟩
  else r

/-- The `/start` handler (lines 231-263). -/
def startHandler (s : State) (myoPass genPass : Bool) : StartResult :=
  match startMyop s myoPass with
  | .error r => r
  | .ok r => startGen r genPass

/-- The `/stop` handler (lines 265-271). -/
def stopHandler (s : State) : HandlerResult :=
  { state := { s with stop_myop := true, stop_gen := true,
                      logBuffer := addLog s.logBuffer "Stop requested for all pulse tasks" },
    responses := [⟨200, "Stopping pulsing."⟩] }

/-- The `/log` handler (lines 273-278). -/
def logHandler (s : State) : HandlerResult :=
  { state := s, responses := [⟨200, String.mk s.logBuffer⟩] }

/-- The tasks that a `/start` request really launched. -/
def StartResult.launched (r : StartResult) : List PulseParams :=
  (r.created.filter (fun c => c.2)).map (fun c => c.1)

/-! ## The pulse task (`pulseTask`, lines 68-94) -/

/-- Wrap-around of a 32-bit `int`. -/
def wrapInt32 (x : Int) : Int := (x + 2147483648) % 4294967296 - 2147483648

/-- What a task does to the outside world. -/
inductive Event where
  /-- An `addLog` call with this expanded message. -/
  | log (msg : String)
  /-- The call `vTaskDelay(pdMS_TO_TICKS(ms))`. -/
  | delay (ms : Int)
  /-- The call `digitalWrite(pin, HIGH)` (`true`) or `digitalWrite(pin, LOW)`. -/
  | digitalWrite (pin : Int) (high : Bool)
  /-- A write through one of the two flag pointers. -/
  | writeFlag (ref : FlagRef) (v : Bool)
deriving DecidableEq

/-- The effect of an event on the globals. -/
def applyEvent (s : State) : Event → State
  | .log msg => { s with logBuffer := addLog s.logBuffer msg }
  | .delay _ => s
  | .digitalWrite _ _ => s
  | .writeFlag ref v => s.writeFlag ref v

def applyEvents (s : State) (evs : List Event) : State := evs.foldl applyEvent s

/-- Line 84: `int lowDelay = p -> period - p -> width`. -/
def lowDelay (p : PulseParams) : Int := wrapInt32 (p.period - p.width)

/-- The line logged at line 71. -/
def initialDelayMsg (p : PulseParams) : String :=
  "Pin " ++ fmtInt p.pin ++ ": waiting initial delay " ++ fmtInt p.startDelay ++ " ms"

/-- Lines 70-73: the initial delay. -/
def initialDelayEvents (p : PulseParams) : List Event :=
  if p.startDelay > 0 then [.log (initialDelayMsg p), .delay p.startDelay] else []

/-- Lines 80-86: one pulse. -/
def pulseEvents (p : PulseParams) : List Event :=
  [.digitalWrite p.pin true, .delay p.width, .digitalWrite p.pin false] ++
    (if lowDelay p > 0 then [.delay (lowDelay p)] else [])

/-- Lines 77-87: the `for` loop with `remaining` iterations left, the next one
being iteration `i`.  `stopRead i` is the value that `*(p -> stopFlag)` has when
iteration `i` reads it at line 78. -/
def pulseLoop (p : PulseParams) (stopRead : Nat → Bool) : Nat → Nat → List Event
  | 0, _ => []
  | remaining + 1, i =>
    if stopRead i then [] else pulseEvents p ++ pulseLoop p stopRead remaining (i + 1)

/-- Lines 89-90: the two writes on the way out. -/
def exitEvents (p : PulseParams) : List Event :=
  [.writeFlag p.runningFlag false, .writeFlag p.stopFlag false]

/-- The whole run of `pulseTask`: `i` goes from 0 while `i < n_pulses`, which is
`n_pulses.toNat` iterations. -/
def pulseTask (p : PulseParams) (stopRead : Nat → Bool) : List Event :=
  initialDelayEvents p ++ [.writeFlag p.runningFlag true] ++
    pulseLoop p stopRead p.n_pulses.toNat 0 ++ exitEvents p

/-- The program points at which a task can be between two steps. -/
inductive PC where
  /-- Created, before line 70. -/
  | entry
  /-- Inside `vTaskDelay` of line 72. -/
  | initialDelay
  /-- Before line 75. -/
  | markRunning
  /-- Before the loop condition of line 77 with this value of `i`. -/
  | loopTest (i : Nat)
  /-- Inside `vTaskDelay` of line 81. -/
  | highPhase (i : Nat)
  /-- Inside `vTaskDelay` of line 86. -/
  | lowPhase (i : Nat)
  /-- Before line 89. -/
  | finish
deriving DecidableEq

/-- One step of a task from a program point to the next one.  `stop` is the
value of `*(p -> stopFlag)` at this moment; the result is the events of the
step and the next program point, `none` once the task has deleted itself. -/
def taskStep (stop : Bool) (p : PulseParams) : PC → List Event × Option PC
  | .entry =>
    if p.startDelay > 0 then
      ([.log (initialDelayMsg p), .delay p.startDelay], some .initialDelay)
    else ([], some .markRunning)
  | .initialDelay => ([], some .markRunning)
  | .markRunning => ([.writeFlag p.runningFlag true], some (.loopTest 0))
  | .loopTest i =>
    if (i : Int) < p.n_pulses then
      if stop then ([], some .finish)
      else ([.digitalWrite p.pin true, .delay p.width], some (.highPhase i))
    else ([], some .finish)
  | .highPhase i =>
    if lowDelay p > 0 then
      ([.digitalWrite p.pin false, .delay (lowDelay p)], some (.lowPhase i))
    else ([.digitalWrite p.pin false], some (.loopTest (i + 1)))
  | .lowPhase i => ([], some (.loopTest (i + 1)))
  | .finish => ([.writeFlag p.runningFlag false, .writeFlag p.stopFlag false], none)

/-- The stop flag value that a step at this program point sees, for a run whose
iteration `i` reads `stopRead i`. -/
def stopSeen (stopRead : Nat → Bool) : PC → Bool
  | .loopTest i => stopRead i
  | _ => false

/-- The events of a task run step by step from a program point, for at most
`fuel` steps. -/
def runSteps (p : PulseParams) (stopRead : Nat → Bool) : Nat → PC → List Event
  | 0, _ => []
  | fuel + 1, pc =>
    match taskStep (stopSeen stopRead pc) p pc with
    | (evs, some next) => evs ++ runSteps p stopRead fuel next
    | (evs, none) => evs

/-! ## The whole system -/

/-- A live task: the `PulseParams` it owns and where it is. -/
structure Task where
  params : PulseParams
  pc : PC
deriving DecidableEq

/-- The globals together with the live tasks, oldest first. -/
structure Sys where
  globals : State
  tasks : List Task
deriving DecidableEq

/-- What can happen next: one of the four requests is handled, or the scheduler
lets the task at position `idx` take a step. -/
inductive Action where
  | set (request : SetRequest)
  | start (myoPass genPass : Bool)
  | stop
  | log
  | run (idx : Nat)

/-- One step of the system. -/
def Sys.step (sys : Sys) : Action → Sys
  | .set request => { sys with globals := (setHandler sys.globals request).state }
  | .start myoPass genPass =>
    let r := startHandler sys.globals myoPass genPass
    { globals := r.state, tasks := sys.tasks ++ r.launched.map (fun p => ⟨p, .entry⟩) }
  | .stop => { sys with globals := (stopHandler sys.globals).state }
  | .log => { sys with globals := (logHandler sys.globals).state }
  | .run idx =>
    match sys.tasks.get? idx with
    | none => sys
    | some t =>
      match taskStep (sys.globals.readFlag t.params.stopFlag) t.params t.pc with
      | (evs, some next) =>
        { globals := applyEvents sys.globals evs, tasks := sys.tasks.set idx { t with pc := next } }
      | (evs, none) =>
        { globals := applyEvents sys.globals evs, tasks := sys.tasks.eraseIdx idx }

def Sys.runActions (sys : Sys) (acts : List Action) : Sys := acts.foldl Sys.step sys

/-- The system when `setup` returns (lines 159-283): the globals at their
initial values, the two lines of `setup` in the log, no task.  `ip` is the text
of `WiFi.softAPIP()`. -/
def bootSys (ip : String) : Sys :=
  { globals := { initState with
      logBuffer := addLog (addLog [] ("AP started. IP: " ++ ip)) "HTTP server started." },
    tasks := [] }

/-- The live tasks that drive a given pin. -/
def Sys.tasksOnPin (sys : Sys) (pin : Int) : List Task :=
  sys.tasks.filter (fun t => t.params.pin = pin)

/-! ## Vocabulary of the statements -/

/-- The four fields of a `/set` request, in the order the handler looks at them. -/
inductive Field where
  | width
  | period
  | npulses
  | delay
deriving DecidableEq

def Field.idx : Field → Nat
  | .width => 0
  | .period => 1
  | .npulses => 2
  | .delay => 3

def SetRequest.get (r : SetRequest) : Field → Option Int
  | .width => r.width
  | .period => r.period
  | .npulses => r.npulses
  | .delay => r.delay

def State.getField (s : State) : Field → Int
  | .width => s.pulse_width
  | .period => s.pulse_period
  | .npulses => s.n_pulses
  | .delay => s.gen_delay_ms

/-- The body of the 400 response of each block. -/
def invalidMessage : Field → String
  | .width => "Invalid width"
  | .period => "Invalid period"
  | .npulses => "Invalid number of pulses"
  | .delay => "Invalid delay"

/-- A field that is supplied with a value `≤ 0`. -/
def isInvalid : Option Int → Bool
  | some v => decide (v ≤ 0)
  | none => false

/-- The first field, in handler order, that is supplied with a value `≤ 0`. -/
def SetRequest.firstInvalid (r : SetRequest) : Option Field :=
  if isInvalid r.width then some .width
  else if isInvalid r.period then some .period
  else if isInvalid r.npulses then some .npulses
  else if isInvalid r.delay then some .delay
  else none

/-- The globals with the supplied fields that come before `f` replaced. -/
def SetRequest.applyBefore (r : SetRequest) (s : State) (f : Field) : State :=
  { s with
    pulse_width := if Field.width.idx < f.idx then r.width.getD s.pulse_width else s.pulse_width,
    pulse_period :=
      if Field.period.idx < f.idx then r.period.getD s.pulse_period else s.pulse_period,
    n_pulses := if Field.npulses.idx < f.idx then r.npulses.getD s.n_pulses else s.n_pulses,
    gen_delay_ms :=
      if Field.delay.idx < f.idx then r.delay.getD s.gen_delay_ms else s.gen_delay_ms }

/-- The globals with every supplied field replaced. -/
def SetRequest.apply (r : SetRequest) (s : State) : State :=
  { s with
    pulse_width := r.width.getD s.pulse_width,
    pulse_period := r.period.getD s.pulse_period,
    n_pulses := r.npulses.getD s.n_pulses,
    gen_delay_ms := r.delay.getD s.gen_delay_ms }

/-- The snapshot that `/start` takes for the Myopacer channel. -/
def myoSnapshot (s : State) : PulseParams :=
  ⟨out_myopacer_pin, s.pulse_width, s.pulse_period, s.n_pulses, 0, .stop_myop, .pulsing_myop⟩

/-- The snapshot that `/start` takes for the Generator channel. -/
def genSnapshot (s : State) : PulseParams :=
  ⟨out_generator_pin, s.pulse_width, s.pulse_period, s.n_pulses, s.gen_delay_ms,
    .stop_gen, .pulsing_gen⟩

/-- The width and the period of the globals are positive `int` values. -/
def State.configOk (s : State) : Prop :=
  (0 < s.pulse_width ∧ s.pulse_width ≤ 2147483647) ∧
    (0 < s.pulse_period ∧ s.pulse_period ≤ 2147483647)

/-- Every supplied value of the request is at most `INT_MAX`, as the result of
`toInt()` stored in an `int` is. -/
def SetRequest.inIntRange (r : SetRequest) : Prop :=
  ∀ f v, r.get f = some v → v ≤ 2147483647

/-! ## Concrete inputs -/

/-- The request `/set?width=50&period=0`. -/
def reqWidthThenBadPeriod : SetRequest := ⟨some 50, some 0, none, none⟩

/-- The request `/set?width=300&period=200`. -/
def reqWidthGePeriod : SetRequest := ⟨some 300, some 200, none, none⟩

/-- The request `/set` without parameters. -/
def reqEmpty : SetRequest := ⟨none, none, none, none⟩

/-- The request `/set?width=100&period=200&npulses=2&delay=50`. -/
def reqAll : SetRequest := ⟨some 100, some 200, some 2, some 50⟩

/-- A message of 255 characters, which gives a log line of 256 characters. -/
def fillMsg : String := String.mk (List.replicate 255 'a')

/-- Thirty-two such messages: 8192 characters of log. -/
def fillMsgs : List String := List.replicate 32 fillMsg

/-- The system after `/start` launched both tasks and each of them reached the
head of its loop: both running flags are set. -/
def bothRunning : Sys :=
  (bootSys "192.168.4.1").runActions
    [.start true true, .run 0, .run 0, .run 1, .run 1, .run 1]

/-- The system after `/start` launched both tasks, the Myopacer task set its
running flag and the Generator task logged its wait and went into the initial
`vTaskDelay` of 50 ms. -/
def duringGenDelay : Sys :=
  (bootSys "192.168.4.1").runActions [.start true true, .run 0, .run 0, .run 1]

/-- The system right after `/start` launched both tasks from the initial
configuration: neither task has run yet. -/
def afterStart : Sys := (bootSys "192.168.4.1").runActions [.start true true]

/-- The request `/set?delay=999`. -/
def reqDelay999 : SetRequest := ⟨none, none, none, some 999⟩

/-! ## Lemmas on the log -/

theorem logLine_length_le (msg : String) : (logLine msg).length ≤ 319 := by
  unfold logLine
  exact (List.length_take_le _ _)

theorem addLog_eq_of_le (buf : List Char) (msg : String)
    (h : (buf ++ logLine msg).length ≤ 8192) : addLog buf msg = buf ++ logLine msg := by
  unfold addLog
  simp only
  rw [if_neg (by omega)]

theorem addLog_eq_of_gt (buf : List Char) (msg : String)
    (h : 8192 < (buf ++ logLine msg).length) :
    addLog buf msg = (buf ++ logLine msg).drop ((buf ++ logLine msg).length - 4096) := by
  unfold addLog
  simp only
  rw [if_pos h]

theorem addLog_length_le (buf : List Char) (msg : String) :
    (addLog buf msg).length ≤ 8192 := by
  by_cases hc : 8192 < (buf ++ logLine msg).length
  · rw [addLog_eq_of_gt buf msg hc, List.length_drop]
    have := logLine_length_le msg
    simp only [List.length_append] at hc ⊢
    omega
  · rw [addLog_eq_of_le buf msg (by omega)]
    omega

theorem addLog_suffix (buf total : List Char) (msg : String) (h : buf <:+ total) :
    addLog buf msg <:+ total ++ logLine msg := by
  have h1 : buf ++ logLine msg <:+ total ++ logLine msg := by
    obtain ⟨pre, rfl⟩ := h
    exact ⟨pre, by simp⟩
  by_cases hc : 8192 < (buf ++ logLine msg).length
  · rw [addLog_eq_of_gt buf msg hc]
    exact (List.drop_suffix _ _).trans h1
  · rw [addLog_eq_of_le buf msg (by omega)]
    exact h1

theorem addLog_length_ge (buf total : List Char) (msg : String) (h : buf <:+ total)
    (hmin : min 4096 total.length ≤ buf.length) :
    min 4096 (total ++ logLine msg).length ≤ (addLog buf msg).length := by
  have hle : buf.length ≤ total.length := h.length_le
  by_cases hc : 8192 < (buf ++ logLine msg).length
  · rw [addLog_eq_of_gt buf msg hc, List.length_drop]
    simp only [List.length_append] at hc ⊢
    omega
  · rw [addLog_eq_of_le buf msg (by omega)]
    simp only [List.length_append] at hc ⊢
    omega

/-- The last `k` elements of a list are the last `k` elements of any suffix that
has at least `k` elements. -/
theorem drop_suffix_eq {α : Type} (s t : List α) (k : Nat) (h : s <:+ t) (hk : k ≤ s.length) :
    s.drop (s.length - k) = t.drop (t.length - k) := by
  obtain ⟨pre, rfl⟩ := h
  have e : (pre ++ s).length - k = pre.length + (s.length - k) := by
    simp only [List.length_append]
    omega
  rw [e, List.drop_append]

theorem addLogs_snoc (buf : List Char) (msgs : List String) (m : String) :
    addLogs buf (msgs ++ [m]) = addLog (addLogs buf msgs) m := by
  simp [addLogs, List.foldl_append]

theorem appendedText_snoc (msgs : List String) (m : String) :
    appendedText (msgs ++ [m]) = appendedText msgs ++ logLine m := by
  simp [appendedText]

/-- The three facts that every append preserves. -/
theorem addLogs_invariant (msgs : List String) :
    (addLogs [] msgs).length ≤ 8192 ∧ addLogs [] msgs <:+ appendedText msgs ∧
      min 4096 (appendedText msgs).length ≤ (addLogs [] msgs).length := by
  induction msgs using List.reverseRecOn with
  | nil => simp [addLogs, appendedText]
  | append_singleton msgs m ih =>
    obtain ⟨h1, h2, h3⟩ := ih
    rw [addLogs_snoc, appendedText_snoc]
    exact ⟨addLog_length_le _ _, addLog_suffix _ _ _ h2, addLog_length_ge _ _ _ h2 h3⟩

/-- Claim C4, log boundedness.  Starting from the empty buffer, after any sequence
of `addLog` calls: every appended line has at most 319 characters, the buffer
has at most 8192 characters, it is a suffix of everything appended so far, it
contains the last `min 4096 total` characters of what was appended, and an
append that takes the length past 8192 leaves exactly the trailing 4096
characters of everything appended. -/
theorem addLog_bounded (msgs : List String) :
    (∀ m, (logLine m).length ≤ 319) ∧
    (addLogs [] msgs).length ≤ 8192 ∧
    addLogs [] msgs <:+ appendedText msgs ∧
    min 4096 (appendedText msgs).length ≤ (addLogs [] msgs).length ∧
    (appendedText msgs).drop
        ((appendedText msgs).length - min 4096 (appendedText msgs).length)
      <:+ addLogs [] msgs ∧
    ∀ m, 8192 < (addLogs [] msgs ++ logLine m).length →
      (addLogs [] (msgs ++ [m])).length = 4096 ∧
      addLogs [] (msgs ++ [m]) =
        (appendedText (msgs ++ [m])).drop ((appendedText (msgs ++ [m])).length - 4096) := by
  obtain ⟨h1, h2, h3⟩ := addLogs_invariant msgs
  refine ⟨logLine_length_le, h1, h2, h3, ?_, ?_⟩
  · refine List.suffix_of_suffix_length_le (List.drop_suffix _ _) h2 ?_
    rw [List.length_drop]
    omega
  · intro m hm
    have hs : addLogs [] msgs ++ logLine m <:+ appendedText (msgs ++ [m]) := by
      rw [appendedText_snoc]
      obtain ⟨pre, hpre⟩ := h2
      exact ⟨pre, by rw [← hpre]; simp⟩
    rw [addLogs_snoc, addLog_eq_of_gt _ _ hm]
    refine ⟨?_, drop_suffix_eq _ _ 4096 hs (by omega)⟩
    rw [List.length_drop]
    omega


set_option maxRecDepth 100000 in
/-- Witness for `addLog_bounded`: after 32 lines of 256 characters the buffer
holds 8192 characters, and the 33rd line trims it to 4096. -/
theorem addLog_bounded_witness :
    8192 < (addLogs [] fillMsgs ++ logLine fillMsg).length ∧
    (addLogs [] (fillMsgs ++ [fillMsg])).length = 4096 ∧
    addLogs [] (fillMsgs ++ [fillMsg]) =
      (appendedText (fillMsgs ++ [fillMsg])).drop
        ((appendedText (fillMsgs ++ [fillMsg])).length - 4096) :=
  have h : 8192 < (addLogs [] fillMsgs ++ logLine fillMsg).length := by decide
  ⟨h, (addLog_bounded fillMsgs).2.2.2.2.2 fillMsg h⟩

/-! ## Lemmas on `/set` -/

theorem setWidth_eq (s : State) (r : SetRequest) :
    setWidth s r = if isInvalid r.width then .error ⟨400, "Invalid width"⟩
      else .ok { s with pulse_width := r.width.getD s.pulse_width } := by
  unfold setWidth isInvalid
  rcases r.width with _ | w
  · simp
  · by_cases h : 0 < w
    · simp [h, not_le.mpr h]
    · simp [h, le_of_not_lt h]

theorem setPeriod_eq (s : State) (r : SetRequest) :
    setPeriod s r = if isInvalid r.period then .error ⟨400, "Invalid period"⟩
      else .ok { s with pulse_period := r.period.getD s.pulse_period } := by
  unfold setPeriod isInvalid
  rcases r.period with _ | w
  · simp
  · by_cases h : 0 < w
    · simp [h, not_le.mpr h]
    · simp [h, le_of_not_lt h]

theorem setNPulses_eq (s : State) (r : SetRequest) :
    setNPulses s r = if isInvalid r.npulses then .error ⟨400, "Invalid number of pulses"⟩
      else .ok { s with n_pulses := r.npulses.getD s.n_pulses } := by
  unfold setNPulses isInvalid
  rcases r.npulses with _ | w
  · simp
  · by_cases h : 0 < w
    · simp [h, not_le.mpr h]
    · simp [h, le_of_not_lt h]

theorem setDelay_eq (s : State) (r : SetRequest) :
    setDelay s r = if isInvalid r.delay then .error ⟨400, "Invalid delay"⟩
      else .ok { s with gen_delay_ms := r.delay.getD s.gen_delay_ms } := by
  unfold setDelay isInvalid
  rcases r.delay with _ | w
  · simp
  · by_cases h : 0 < w
    · simp [h, not_le.mpr h]
    · simp [h, le_of_not_lt h]

theorem setHandler_eq (s : State) (r : SetRequest) :
    setHandler s r =
      match r.firstInvalid with
      | some f => ⟨r.applyBefore s f, [⟨400, invalidMessage f⟩]⟩
      | none => setFinish (r.apply s) := by
  unfold setHandler SetRequest.firstInvalid
  rw [setWidth_eq]
  by_cases hw : isInvalid r.width = true
  · simp [hw, SetRequest.applyBefore, Field.idx, invalidMessage]
  · simp only [hw, if_false, Bool.false_eq_true]
    rw [setPeriod_eq]
    by_cases hp : isInvalid r.period = true
    · simp [hp, SetRequest.applyBefore, Field.idx, invalidMessage]
    · simp only [hp, if_false, Bool.false_eq_true]
      rw [setNPulses_eq]
      by_cases hn : isInvalid r.npulses = true
      · simp [hn, SetRequest.applyBefore, Field.idx, invalidMessage]
      · simp only [hn, if_false, Bool.false_eq_true]
        rw [setDelay_eq]
        by_cases hd : isInvalid r.delay = true
        · simp [hd, SetRequest.applyBefore, Field.idx, invalidMessage]
        · simp only [hd, if_false, Bool.false_eq_true]
          rfl

theorem firstInvalid_some (r : SetRequest) (f : Field) (h : r.firstInvalid = some f) :
    isInvalid (r.get f) = true ∧ ∀ g : Field, g.idx < f.idx → isInvalid (r.get g) = false := by
  unfold SetRequest.firstInvalid at h
  split_ifs at h with hw hp hn hd <;> cases h <;>
    refine ⟨by assumption, fun g hg => ?_⟩ <;>
    cases g <;> simp [Field.idx] at hg <;> simp_all [SetRequest.get]

theorem firstInvalid_none (r : SetRequest) (h : r.firstInvalid = none) (g : Field) :
    isInvalid (r.get g) = false := by
  unfold SetRequest.firstInvalid at h
  split_ifs at h with hw hp hn hd
  cases g <;> simp_all [SetRequest.get]

theorem isInvalid_eq_true (o : Option Int) :
    isInvalid o = true ↔ ∃ v, o = some v ∧ v ≤ 0 := by
  cases o <;> simp [isInvalid]

theorem isInvalid_eq_false (o : Option Int) :
    isInvalid o = false ↔ ∀ v, o = some v → 0 < v := by
  cases o <;> simp [isInvalid]

theorem firstInvalid_eq_none_iff (r : SetRequest) :
    r.firstInvalid = none ↔ ∀ f v, r.get f = some v → 0 < v := by
  constructor
  · intro h f
    exact (isInvalid_eq_false _).1 (firstInvalid_none r h f)
  · intro h
    cases hfi : r.firstInvalid with
    | none => rfl
    | some f =>
      obtain ⟨v, hv, hle⟩ := (isInvalid_eq_true _).1 (firstInvalid_some r f hfi).1
      have := h f v hv
      omega

theorem applyBefore_getField (r : SetRequest) (s : State) (f g : Field) :
    (r.applyBefore s f).getField g =
      if g.idx < f.idx then (r.get g).getD (s.getField g) else s.getField g := by
  cases g <;> rfl

theorem apply_getField (r : SetRequest) (s : State) (g : Field) :
    (r.apply s).getField g = (r.get g).getD (s.getField g) := by
  cases g <;> rfl

theorem setFinish_getField (s : State) (g : Field) :
    (setFinish s).state.getField g = s.getField g := by
  unfold setFinish
  split_ifs <;> cases g <;> rfl

/-! ## The claims on `/set` -/

/-- Claim C1 as stated fails: from the initial configuration the request
`width=50&period=0` is answered 400 "Invalid period", yet `pulse_width` has
already been overwritten with 50, so the configuration is not what it was. -/
theorem set_invalid_period_after_width_changes_config :
    isInvalid reqWidthThenBadPeriod.period = true ∧
    (setHandler initState reqWidthThenBadPeriod).responses = [⟨400, "Invalid period"⟩] ∧
    ¬ ((setHandler initState reqWidthThenBadPeriod).state.config = initState.config) := by
  decide

/-- Claim C1, amended.  When some supplied field is `≤ 0`, the `/set` handler
sends exactly one response, 400 with the message of the first such field `f` in
the order width, period, npulses, delay; `f` and every later field keep their
prior value; every supplied field before `f` is positive and has been written;
flags and log are untouched. -/
theorem set_nonpositive_rejected (s : State) (r : SetRequest)
    (h : ∃ f v, r.get f = some v ∧ v ≤ 0) :
    ∃ f v, r.get f = some v ∧ v ≤ 0 ∧
      (setHandler s r).responses = [⟨400, invalidMessage f⟩] ∧
      (∀ g : Field, f.idx ≤ g.idx → (setHandler s r).state.getField g = s.getField g) ∧
      (∀ g : Field, g.idx < f.idx →
        (setHandler s r).state.getField g = (r.get g).getD (s.getField g)) ∧
      (∀ (g : Field) (u : Int), g.idx < f.idx → r.get g = some u → 0 < u) ∧
      (∀ ref, (setHandler s r).state.readFlag ref = s.readFlag ref) ∧
      (setHandler s r).state.logBuffer = s.logBuffer := by
  cases hfi : r.firstInvalid with
  | none =>
    obtain ⟨f, v, hv, hle⟩ := h
    have := (firstInvalid_eq_none_iff r).1 hfi f v hv
    omega
  | some f =>
    obtain ⟨hf, hbefore⟩ := firstInvalid_some r f hfi
    obtain ⟨v, hv, hle⟩ := (isInvalid_eq_true _).1 hf
    have hres := setHandler_eq s r
    rw [hfi] at hres
    simp only at hres
    refine ⟨f, v, hv, hle, ?_, ?_, ?_, ?_, ?_, ?_⟩
    · rw [hres]
    · intro g hg
      rw [hres, applyBefore_getField, if_neg (by omega)]
    · intro g hg
      rw [hres, applyBefore_getField, if_pos hg]
    · intro g u hg hu
      exact (isInvalid_eq_false _).1 (hbefore g hg) u hu
    · intro ref
      rw [hres]
      cases ref <;> rfl
    · rw [hres]
      rfl

/-- Witness for `set_nonpositive_rejected`: the request `width=50&period=0` on
the initial state. -/
theorem set_nonpositive_rejected_witness :
    ∃ f v, reqWidthThenBadPeriod.get f = some v ∧ v ≤ 0 ∧
      (setHandler initState reqWidthThenBadPeriod).responses = [⟨400, invalidMessage f⟩] ∧
      (∀ g : Field, f.idx ≤ g.idx →
        (setHandler initState reqWidthThenBadPeriod).state.getField g = initState.getField g) ∧
      (∀ g : Field, g.idx < f.idx →
        (setHandler initState reqWidthThenBadPeriod).state.getField g =
          (reqWidthThenBadPeriod.get g).getD (initState.getField g)) ∧
      (∀ (g : Field) (u : Int), g.idx < f.idx → reqWidthThenBadPeriod.get g = some u → 0 < u) ∧
      (∀ ref, (setHandler initState reqWidthThenBadPeriod).state.readFlag ref =
        initState.readFlag ref) ∧
      (setHandler initState reqWidthThenBadPeriod).state.logBuffer = initState.logBuffer :=
  set_nonpositive_rejected initState reqWidthThenBadPeriod ⟨.period, 0, rfl, le_refl 0⟩

/-- Claim C2 evaluated at `width=300&period=200` on the initial state: the handler
answers 400 "Error: pulse width must be less than pulse period.", but the
globals now hold width 300 and period 200, so `width < period` no longer holds
and the prior width 100 is gone. -/
theorem set_width_ge_period_is_stored :
    (setHandler initState reqWidthGePeriod).responses =
      [⟨400, "Error: pulse width must be less than pulse period."⟩] ∧
    (setHandler initState reqWidthGePeriod).state.config = (300, 200, 10, 50) ∧
    initState.config = (100, 200, 10, 50) ∧
    ¬ ((setHandler initState reqWidthGePeriod).state.pulse_width <
        (setHandler initState reqWidthGePeriod).state.pulse_period) := by
  decide

theorem setFinish_responses (s : State) :
    (setFinish s).responses = [⟨200, "Parameters updated."⟩] ↔ s.pulse_width < s.pulse_period := by
  unfold setFinish
  split_ifs with h
  · simp only [List.cons.injEq, Response.mk.injEq, and_true]
    constructor
    · intro h2
      exact absurd h2.1 (by decide)
    · intro h2
      omega
  · simp only [true_iff]
    omega

/-- Claim C3.  The `/set` handler answers 200 "Parameters updated." exactly when
every supplied value is positive and the resulting width (supplied, else prior)
is below the resulting period; it then holds the prior configuration with
exactly the supplied fields replaced, the flags untouched and one
"Params updated" line in the log.  The empty request on the initial state is
answered 200 and leaves the configuration as it was. -/
theorem set_accepts_iff (s : State) (r : SetRequest) :
    ((setHandler s r).responses = [⟨200, "Parameters updated."⟩] ↔
      ((∀ f v, r.get f = some v → 0 < v) ∧
        r.width.getD s.pulse_width < r.period.getD s.pulse_period)) ∧
    ((∀ f v, r.get f = some v → 0 < v) →
      r.width.getD s.pulse_width < r.period.getD s.pulse_period →
        (∀ g : Field, (setHandler s r).state.getField g = (r.get g).getD (s.getField g)) ∧
        (∀ ref, (setHandler s r).state.readFlag ref = s.readFlag ref) ∧
        (setHandler s r).state.logBuffer = addLog s.logBuffer (updatedMsg (r.apply s))) ∧
    ((setHandler initState reqEmpty).responses = [⟨200, "Parameters updated."⟩] ∧
      (setHandler initState reqEmpty).state.config = initState.config ∧
      initState.config = (100, 200, 10, 50)) := by
  have hres := setHandler_eq s r
  refine ⟨?_, ?_, by decide⟩
  · cases hfi : r.firstInvalid with
    | none =>
      rw [hfi] at hres
      simp only at hres
      rw [hres, setFinish_responses]
      constructor
      · intro h
        exact ⟨(firstInvalid_eq_none_iff r).1 hfi, h⟩
      · intro h
        exact h.2
    | some f =>
      rw [hfi] at hres
      simp only at hres
      rw [hres]
      constructor
      · intro h
        simp at h
      · intro h
        have := (firstInvalid_eq_none_iff r).2 h.1
        rw [hfi] at this
        cases this
  · intro hpos hlt
    have hfi := (firstInvalid_eq_none_iff r).2 hpos
    rw [hfi] at hres
    simp only at hres
    have hfin : setFinish (r.apply s) =
        { state := { r.apply s with
            logBuffer := addLog (r.apply s).logBuffer (updatedMsg (r.apply s)) },
          responses := [⟨200, "Parameters updated."⟩] } := by
      unfold setFinish
      rw [if_neg]
      show ¬ (r.width.getD s.pulse_width ≥ r.period.getD s.pulse_period)
      omega
    refine ⟨?_, ?_, ?_⟩
    · intro g
      rw [hres, setFinish_getField, apply_getField]
    · intro ref
      rw [hres, hfin]
      cases ref <;> rfl
    · rw [hres, hfin]
      rfl

/-- Witness for `set_accepts_iff`: the request
`width=100&period=200&npulses=2&delay=50` on the initial state is accepted and
stores all four values. -/
theorem set_accepts_iff_witness :
    (setHandler initState reqAll).responses = [⟨200, "Parameters updated."⟩] ∧
    (∀ g : Field,
      (setHandler initState reqAll).state.getField g =
        (reqAll.get g).getD (initState.getField g)) ∧
    (∀ ref, (setHandler initState reqAll).state.readFlag ref = initState.readFlag ref) ∧
    (setHandler initState reqAll).state.logBuffer =
      addLog initState.logBuffer (updatedMsg (reqAll.apply initState)) :=
  have hpos : ∀ f v, reqAll.get f = some v → 0 < v := by
    intro f v hv
    cases f <;> simp [reqAll, SetRequest.get] at hv <;> omega
  have hlt : reqAll.width.getD initState.pulse_width <
      reqAll.period.getD initState.pulse_period := by decide
  ⟨(set_accepts_iff initState reqAll).1.2 ⟨hpos, hlt⟩,
    (set_accepts_iff initState reqAll).2.1 hpos hlt⟩

/-! ## The claims on `/start`, `/stop` and `/log` -/

/-- The result of `/start` in each of its five paths. -/
theorem startHandler_cases (s : State) (myoPass genPass : Bool) :
    startHandler s myoPass genPass =
      if s.pulsing_myop then
        if s.pulsing_gen then ⟨s, [], []⟩
        else if genPass then
          ⟨{ s with stop_gen := false }, [⟨200, "Started Generator pulsing."⟩],
            [(genSnapshot s, true)]⟩
        else
          ⟨{ s with stop_gen := false,
                    logBuffer := addLog s.logBuffer "Failed to create Generator Task" },
            [⟨500, "Failed to start Generator."⟩], [(genSnapshot s, false)]⟩
      else if myoPass then
        if s.pulsing_gen then
          ⟨{ s with stop_myop := false }, [⟨200, "Started Myopacer pulsing."⟩],
            [(myoSnapshot s, true)]⟩
        else if genPass then
          ⟨{ s with stop_myop := false, stop_gen := false },
            [⟨200, "Started Myopacer pulsing."⟩, ⟨200, "Started Generator pulsing."⟩],
            [(myoSnapshot s, true), (genSnapshot s, true)]⟩
        else
          ⟨{ s with stop_myop := false, stop_gen := false,
                    logBuffer := addLog s.logBuffer "Failed to create Generator Task" },
            [⟨200, "Started Myopacer pulsing."⟩, ⟨500, "Failed to start Generator."⟩],
            [(myoSnapshot s, true), (genSnapshot s, false)]⟩
      else
        ⟨{ s with stop_myop := false,
                  logBuffer := addLog s.logBuffer "Failed to create Myopacer Task" },
          [⟨500, "Failed to start Myopacer."⟩], [(myoSnapshot s, false)]⟩ := by
  cases hm : s.pulsing_myop <;> cases hg : s.pulsing_gen <;> cases myoPass <;> cases genPass <;>
    simp [startHandler, startMyop, startGen, hm, hg, myoSnapshot, genSnapshot]

/-- Claim C6, start on a running channel.  When a channel's running flag is set, the
`/start` handler makes no `xTaskCreatePinnedToCore` call for that channel (no
snapshot with its pin or its flag pointers is built), leaves its stop flag and
its running flag as they were, and the live tasks of that channel, with their
snapshots and program points, are the same before and after the request.  This
holds for the Myopacer and for the Generator channel, whatever the other channel
does. -/
theorem start_on_running_channel (sys : Sys) (myoPass genPass : Bool) :
    (sys.globals.pulsing_myop = true →
      (∀ c ∈ (startHandler sys.globals myoPass genPass).created,
        c.1.pin ≠ out_myopacer_pin ∧ c.1.runningFlag ≠ .pulsing_myop ∧
          c.1.stopFlag ≠ .stop_myop) ∧
      (startHandler sys.globals myoPass genPass).state.stop_myop = sys.globals.stop_myop ∧
      (startHandler sys.globals myoPass genPass).state.pulsing_myop = true ∧
      (sys.step (.start myoPass genPass)).tasksOnPin out_myopacer_pin =
        sys.tasksOnPin out_myopacer_pin) ∧
    (sys.globals.pulsing_gen = true →
      (∀ c ∈ (startHandler sys.globals myoPass genPass).created,
        c.1.pin ≠ out_generator_pin ∧ c.1.runningFlag ≠ .pulsing_gen ∧
          c.1.stopFlag ≠ .stop_gen) ∧
      (startHandler sys.globals myoPass genPass).state.stop_gen = sys.globals.stop_gen ∧
      (startHandler sys.globals myoPass genPass).state.pulsing_gen = true ∧
      (sys.step (.start myoPass genPass)).tasksOnPin out_generator_pin =
        sys.tasksOnPin out_generator_pin) := by
  constructor
  · intro h
    cases hg : sys.globals.pulsing_gen <;> cases myoPass <;> cases genPass <;>
      simp [Sys.step, Sys.tasksOnPin, StartResult.launched, startHandler_cases, h, hg,
        genSnapshot, myoSnapshot, out_myopacer_pin, out_generator_pin, List.filter_append]
  · intro h
    cases hm : sys.globals.pulsing_myop <;> cases myoPass <;> cases genPass <;>
      simp [Sys.step, Sys.tasksOnPin, StartResult.launched, startHandler_cases, h, hm,
        genSnapshot, myoSnapshot, out_myopacer_pin, out_generator_pin, List.filter_append]

/-- Witness for `start_on_running_channel`: both channels running, one live
task on each pin. -/
theorem start_on_running_channel_witness :
    bothRunning.globals.pulsing_myop = true ∧ bothRunning.globals.pulsing_gen = true ∧
    (bothRunning.step (.start true true)).tasksOnPin out_myopacer_pin =
      bothRunning.tasksOnPin out_myopacer_pin ∧
    (bothRunning.step (.start true true)).tasksOnPin out_generator_pin =
      bothRunning.tasksOnPin out_generator_pin :=
  have hm : bothRunning.globals.pulsing_myop = true := by decide
  have hg : bothRunning.globals.pulsing_gen = true := by decide
  ⟨hm, hg, ((start_on_running_channel bothRunning true true).1 hm).2.2.2,
    ((start_on_running_channel bothRunning true true).2 hg).2.2.2⟩

/-- Claim C7 as stated fails: with both channels idle and the Myopacer task
creation failing, the handler answers 500 and returns; no
`xTaskCreatePinnedToCore` call is made for the Generator pin. -/
theorem start_myop_failure_skips_generator :
    initState.pulsing_myop = false ∧ initState.pulsing_gen = false ∧
    (startHandler initState false true).responses = [⟨500, "Failed to start Myopacer."⟩] ∧
    ¬ (∃ c ∈ (startHandler initState false true).created, c.1.pin = out_generator_pin) := by
  decide

/-- Claim C7, amended.  With both channels idle: when the Myopacer task cannot be
created the handler logs it, answers 500 "Failed to start Myopacer." and
returns, the only creation call being the failed Myopacer one; when the
Myopacer task is created and the Generator task cannot be, the Myopacer launch
stands and the handler answers 200 for it and then 500 "Failed to start
Generator.".  In both cases no running flag is set by the handler. -/
theorem start_failure_paths (s : State) (genPass : Bool)
    (hm : s.pulsing_myop = false) (hg : s.pulsing_gen = false) :
    ((startHandler s false genPass).responses = [⟨500, "Failed to start Myopacer."⟩] ∧
      (startHandler s false genPass).created = [(myoSnapshot s, false)] ∧
      (startHandler s false genPass).launched = [] ∧
      (startHandler s false genPass).state.logBuffer =
        addLog s.logBuffer "Failed to create Myopacer Task" ∧
      (startHandler s false genPass).state.pulsing_myop = false ∧
      (startHandler s false genPass).state.pulsing_gen = false) ∧
    ((startHandler s true false).responses =
        [⟨200, "Started Myopacer pulsing."⟩, ⟨500, "Failed to start Generator."⟩] ∧
      (startHandler s true false).created = [(myoSnapshot s, true), (genSnapshot s, false)] ∧
      (startHandler s true false).launched = [myoSnapshot s] ∧
      (startHandler s true false).state.logBuffer =
        addLog s.logBuffer "Failed to create Generator Task" ∧
      (startHandler s true false).state.pulsing_myop = false ∧
      (startHandler s true false).state.pulsing_gen = false) := by
  cases genPass <;>
    simp [startHandler_cases, hm, hg, StartResult.launched]

/-- Witness for `start_failure_paths`: the initial state. -/
theorem start_failure_paths_witness :
    (startHandler initState false true).responses = [⟨500, "Failed to start Myopacer."⟩] ∧
    (startHandler initState false true).created = [(myoSnapshot initState, false)] ∧
    (startHandler initState true false).created =
      [(myoSnapshot initState, true), (genSnapshot initState, false)] :=
  have h := start_failure_paths initState true rfl rfl
  ⟨h.1.1, h.1.2.1, h.2.2.1⟩

theorem setHandler_readFlag (s : State) (r : SetRequest) (ref : FlagRef) :
    (setHandler s r).state.readFlag ref = s.readFlag ref := by
  rw [setHandler_eq]
  cases r.firstInvalid with
  | none =>
    simp only
    unfold setFinish
    split_ifs <;> cases ref <;> rfl
  | some f => cases ref <;> rfl

/-- A sequence of `/set` requests leaves the live tasks and every flag as they
were. -/
theorem runActions_set (reqs : List SetRequest) :
    ∀ sys : Sys, (sys.runActions (reqs.map Action.set)).tasks = sys.tasks ∧
      ∀ ref, (sys.runActions (reqs.map Action.set)).globals.readFlag ref =
        sys.globals.readFlag ref := by
  induction reqs with
  | nil =>
    intro sys
    exact ⟨rfl, fun _ => rfl⟩
  | cons r rest ih =>
    intro sys
    obtain ⟨h1, h2⟩ := ih (sys.step (.set r))
    have e : sys.runActions ((r :: rest).map Action.set) =
        (sys.step (.set r)).runActions (rest.map Action.set) := rfl
    rw [e]
    refine ⟨h1, fun ref => ?_⟩
    rw [h2 ref]
    exact setHandler_readFlag sys.globals r ref

/-- A task step of the system, for the task `t` at position `idx`: the tasks
and the globals it leaves are given by the events and the next program point of
`taskStep` on the task's own snapshot and the stop flag. -/
theorem step_run_eq (sys : Sys) (idx : Nat) (t : Task) (h : sys.tasks.get? idx = some t) :
    (sys.step (.run idx)).globals =
        applyEvents sys.globals
          (taskStep (sys.globals.readFlag t.params.stopFlag) t.params t.pc).1 ∧
      (sys.step (.run idx)).tasks =
        match (taskStep (sys.globals.readFlag t.params.stopFlag) t.params t.pc).2 with
        | some next => sys.tasks.set idx { t with pc := next }
        | none => sys.tasks.eraseIdx idx := by
  simp only [Sys.step, h]
  rcases taskStep (sys.globals.readFlag t.params.stopFlag) t.params t.pc with ⟨evs, _ | next⟩
  · exact ⟨rfl, rfl⟩
  · exact ⟨rfl, rfl⟩

/-- Claim C8, snapshot capture.  The `PulseParams` that `/start` hands to a task
for an idle channel hold the width, period and pulse count of the globals at
that moment, with start delay 0 on the Myopacer pin and start delay
`gen_delay_ms` on the Generator pin, and every `PulseParams` it builds is one of
these two.  A later `/set` request leaves every live task, snapshot included, as
it is, and a task step taken after the `/set` gives the same tasks as the step
taken without it.  The events of a task step are those of `taskStep` on the
task's snapshot and its stop flag: a `/set` request changes neither the events
nor the next program point of the step, and after any sequence of `/set`
requests the step of a live task emits, and applies to the globals, exactly the
events it would have emitted before them, with the width, period, count and
delay of the snapshot. -/
theorem start_snapshot (s : State) (myoPass genPass : Bool) :
    (s.pulsing_myop = false →
      (startHandler s myoPass genPass).created.head? = some (myoSnapshot s, myoPass) ∧
      myoSnapshot s =
        ⟨25, s.pulse_width, s.pulse_period, s.n_pulses, 0, .stop_myop, .pulsing_myop⟩) ∧
    (s.pulsing_gen = false → (s.pulsing_myop = true ∨ myoPass = true) →
      (startHandler s myoPass genPass).created.getLast? = some (genSnapshot s, genPass) ∧
      genSnapshot s =
        ⟨26, s.pulse_width, s.pulse_period, s.n_pulses, s.gen_delay_ms,
          .stop_gen, .pulsing_gen⟩) ∧
    (∀ c ∈ (startHandler s myoPass genPass).created,
      c.1 = myoSnapshot s ∨ c.1 = genSnapshot s) ∧
    (∀ (sys : Sys) (request : SetRequest),
      (sys.step (.set request)).tasks = sys.tasks) ∧
    (∀ (sys : Sys) (request : SetRequest) (idx : Nat),
      ((sys.step (.set request)).step (.run idx)).tasks = (sys.step (.run idx)).tasks) ∧
    (∀ (g : State) (request : SetRequest) (p : PulseParams) (pc : PC),
      taskStep ((setHandler g request).state.readFlag p.stopFlag) p pc =
        taskStep (g.readFlag p.stopFlag) p pc) ∧
    (∀ (sys : Sys) (reqs : List SetRequest) (idx : Nat) (t : Task),
      sys.tasks.get? idx = some t →
        (sys.runActions (reqs.map Action.set)).tasks.get? idx = some t ∧
        ((sys.runActions (reqs.map Action.set)).step (.run idx)).tasks =
          (sys.step (.run idx)).tasks ∧
        ((sys.runActions (reqs.map Action.set)).step (.run idx)).globals =
          applyEvents (sys.runActions (reqs.map Action.set)).globals
            (taskStep (sys.globals.readFlag t.params.stopFlag) t.params t.pc).1 ∧
        (sys.step (.run idx)).globals =
          applyEvents sys.globals
            (taskStep (sys.globals.readFlag t.params.stopFlag) t.params t.pc).1) := by
  refine ⟨?_, ?_, ?_, ?_, ?_, ?_, ?_⟩
  · intro h
    cases hg : s.pulsing_gen <;> cases myoPass <;> cases genPass <;>
      simp [startHandler_cases, h, hg, myoSnapshot, out_myopacer_pin]
  · intro h hor
    rcases hor with hm | hm
    · cases myoPass <;> cases genPass <;>
        simp [startHandler_cases, h, hm, genSnapshot, out_generator_pin]
    · subst hm
      cases hp : s.pulsing_myop <;> cases genPass <;>
        simp [startHandler_cases, h, hp, genSnapshot, out_generator_pin]
  · cases hm : s.pulsing_myop <;> cases hg : s.pulsing_gen <;> cases myoPass <;>
      cases genPass <;> simp [startHandler_cases, hm, hg]
  · intro sys request
    rfl
  · intro sys request idx
    simp only [Sys.step]
    cases hget : sys.tasks.get? idx with
    | none => rfl
    | some t =>
      simp only [setHandler_readFlag]
      rcases taskStep (sys.globals.readFlag t.params.stopFlag) t.params t.pc with ⟨evs, _ | next⟩
      · rfl
      · rfl
  · intro g request p pc
    rw [setHandler_readFlag]
  · intro sys reqs idx t hget
    obtain ⟨htasks, hflags⟩ := runActions_set reqs sys
    have hget' : (sys.runActions (reqs.map Action.set)).tasks.get? idx = some t := by
      rw [htasks]
      exact hget
    obtain ⟨hg1, ht1⟩ := step_run_eq (sys.runActions (reqs.map Action.set)) idx t hget'
    obtain ⟨hg0, ht0⟩ := step_run_eq sys idx t hget
    rw [hflags] at hg1 ht1
    refine ⟨hget', ?_, hg1, hg0⟩
    rw [ht1, ht0, htasks]

/-- Witness for `start_snapshot`: `/start` on the initial state builds the two
snapshots of the initial configuration, and when `/set?delay=999` is handled
before the Generator task takes its first step, that step still logs and waits
the 50 ms of its snapshot. -/
theorem start_snapshot_witness :
    (startHandler initState true true).created.head? =
      some (⟨25, 100, 200, 10, 0, .stop_myop, .pulsing_myop⟩, true) ∧
    (startHandler initState true true).created.getLast? =
      some (⟨26, 100, 200, 10, 50, .stop_gen, .pulsing_gen⟩, true) ∧
    afterStart.tasks.get? 1 = some ⟨genSnapshot initState, .entry⟩ ∧
    (afterStart.runActions [.set reqDelay999]).globals.gen_delay_ms = 999 ∧
    ((afterStart.runActions [.set reqDelay999]).step (.run 1)).globals =
      applyEvents (afterStart.runActions [.set reqDelay999]).globals
        [Event.log "Pin 26: waiting initial delay 50 ms", Event.delay 50] :=
  have h := start_snapshot initState true true
  have hget : afterStart.tasks.get? 1 = some ⟨genSnapshot initState, .entry⟩ := by decide
  ⟨(h.1 rfl).1, (h.2.1 rfl (Or.inr rfl)).1, hget, by decide,
    (h.2.2.2.2.2.2 afterStart [reqDelay999] 1 ⟨genSnapshot initState, .entry⟩ hget).2.2.1.trans
      (congrArg (applyEvents (afterStart.runActions [.set reqDelay999]).globals)
        (by decide :
          (taskStep (afterStart.globals.readFlag (genSnapshot initState).stopFlag)
            (genSnapshot initState) PC.entry).1 =
            [Event.log "Pin 26: waiting initial delay 50 ms", Event.delay 50]))⟩

/-- Claim C9 evaluated where it fails.  The `/set` handler always sends exactly
one response, `/stop` always sends 200 "Stopping pulsing." and `/log` always
sends 200 with the buffer; but in the state reached after `/start` launched
both tasks and both set their running flag, a further `/start` request sends no
response at all, and the same holds in every state with both flags set. -/
theorem start_sends_nothing_when_both_running :
    (∀ s r, (setHandler s r).responses.length = 1) ∧
    (∀ s, (stopHandler s).responses = [⟨200, "Stopping pulsing."⟩]) ∧
    (∀ s, (logHandler s).responses = [⟨200, String.mk s.logBuffer⟩]) ∧
    bothRunning.globals.pulsing_myop = true ∧ bothRunning.globals.pulsing_gen = true ∧
    (startHandler bothRunning.globals true true).responses = [] ∧
    (∀ (s : State) (myoPass genPass : Bool),
      (startHandler { s with pulsing_myop := true, pulsing_gen := true } myoPass genPass
        ).responses = []) := by
  refine ⟨?_, fun s => rfl, fun s => rfl, by decide, by decide, by decide, ?_⟩
  · intro s r
    rw [setHandler_eq]
    cases r.firstInvalid with
    | none =>
      simp only
      unfold setFinish
      split_ifs <;> rfl
    | some f => rfl
  · intro s myoPass genPass
    simp [startHandler_cases]

/-- Claim C10 evaluated where it fails.  After `/start` launched both tasks, the
Myopacer task set its running flag and the Generator task entered its initial
delay of 50 ms, the Generator running flag is still false although that task is
live; a second `/start` at this moment launches a second task on the Generator
pin, so that two tasks drive pin 26. -/
theorem start_during_initial_delay_launches_second_task :
    (duringGenDelay.tasks.map (fun t => (t.params.pin, t.pc)) =
      [(25, PC.loopTest 0), (26, PC.initialDelay)]) ∧
    duringGenDelay.globals.pulsing_myop = true ∧
    duringGenDelay.globals.pulsing_gen = false ∧
    (startHandler duringGenDelay.globals true true).launched =
      [genSnapshot duringGenDelay.globals] ∧
    ((duringGenDelay.step (.start true true)).tasks.map (fun t => (t.params.pin, t.pc)) =
      [(25, PC.loopTest 0), (26, PC.initialDelay), (26, PC.entry)]) ∧
    ((duringGenDelay.step (.start true true)).tasksOnPin out_generator_pin).length = 2 := by
  decide

/-! ## The pulse task -/

theorem wrapInt32_of_range (x : Int) (h1 : -2147483648 ≤ x) (h2 : x ≤ 2147483647) :
    wrapInt32 x = x := by
  unfold wrapInt32
  omega

/-- The loop runs exactly `k` pulses when the stop flag reads false at the first
`k` checks and either reads true at the next one or the iterations are used up. -/
theorem pulseLoop_eq_replicate (p : PulseParams) (stopRead : Nat → Bool) :
    ∀ (k remaining i : Nat), (∀ j, j < k → stopRead (i + j) = false) →
      ((k < remaining ∧ stopRead (i + k) = true) ∨ k = remaining) →
      pulseLoop p stopRead remaining i = (List.replicate k (pulseEvents p)).flatten := by
  intro k
  induction k with
  | zero =>
    intro remaining i _ hk
    rcases hk with ⟨hlt, hstop⟩ | rfl
    · obtain ⟨r, rfl⟩ := Nat.exists_eq_succ_of_ne_zero (Nat.pos_iff_ne_zero.1 hlt)
      simp only [Nat.add_zero] at hstop
      simp [pulseLoop, hstop]
    · simp [pulseLoop]
  | succ k ih =>
    intro remaining i hbefore hk
    have hrem : 0 < remaining := by omega
    obtain ⟨r, rfl⟩ := Nat.exists_eq_succ_of_ne_zero (Nat.pos_iff_ne_zero.1 hrem)
    have h0 : stopRead i = false := by simpa using hbefore 0 (Nat.succ_pos k)
    have hrec : pulseLoop p stopRead r (i + 1) = (List.replicate k (pulseEvents p)).flatten := by
      apply ih
      · intro j hj
        have := hbefore (j + 1) (by omega)
        rwa [show i + 1 + j = i + (j + 1) by omega]
      · rcases hk with ⟨hlt, hstop⟩ | heq
        · left
          refine ⟨by omega, ?_⟩
          rwa [show i + 1 + k = i + (k + 1) by omega]
        · right
          omega
    simp [pulseLoop, h0, hrec, List.replicate_succ]

/-- Claim C5, trace of a run of `pulseTask`.  For a snapshot whose `period - width`
fits an `int`, when the stop flag reads false at the checks of iterations
`0 .. k-1` and either reads true at the check of iteration `k < n_pulses` or
`k = max n_pulses 0`: the events of the run are the log line and the wait of
`startDelay` if `startDelay > 0`, then the write `running := true`, then `k`
times HIGH, wait `width`, LOW and a wait of `period - width` only if that is
positive, then the writes `running := false` and `stop := false` and nothing
else.  After these last two writes both flags read false, from whatever state
the globals were in. -/
theorem pulseTask_trace (p : PulseParams) (stopRead : Nat → Bool) (k : Nat)
    (hfit : -2147483648 ≤ p.period - p.width ∧ p.period - p.width ≤ 2147483647)
    (hbefore : ∀ j, j < k → stopRead j = false)
    (hk : ((k : Int) < p.n_pulses ∧ stopRead k = true) ∨ (k : Int) = max p.n_pulses 0) :
    pulseTask p stopRead =
      (if p.startDelay > 0 then [Event.log (initialDelayMsg p), Event.delay p.startDelay]
        else []) ++
      [Event.writeFlag p.runningFlag true] ++
      (List.replicate k
        ([Event.digitalWrite p.pin true, Event.delay p.width, Event.digitalWrite p.pin false] ++
          (if p.period - p.width > 0 then [Event.delay (p.period - p.width)] else []))).flatten ++
      [Event.writeFlag p.runningFlag false, Event.writeFlag p.stopFlag false] ∧
    (∀ s : State,
      (applyEvents s [Event.writeFlag p.runningFlag false, Event.writeFlag p.stopFlag false]
        ).readFlag p.runningFlag = false ∧
      (applyEvents s [Event.writeFlag p.runningFlag false, Event.writeFlag p.stopFlag false]
        ).readFlag p.stopFlag = false) ∧
    (∀ s : State,
      (applyEvents s (pulseTask p stopRead)).readFlag p.runningFlag = false ∧
      (applyEvents s (pulseTask p stopRead)).readFlag p.stopFlag = false) := by
  have hlow : lowDelay p = p.period - p.width := wrapInt32_of_range _ hfit.1 hfit.2
  have hloop : pulseLoop p stopRead p.n_pulses.toNat 0 =
      (List.replicate k (pulseEvents p)).flatten := by
    apply pulseLoop_eq_replicate
    · intro j hj
      rw [Nat.zero_add]
      exact hbefore j hj
    · rcases hk with ⟨hlt, hstop⟩ | heq
      · left
        refine ⟨by omega, ?_⟩
        rwa [Nat.zero_add]
      · right
        omega
  have hexit : ∀ s : State,
      (applyEvents s [Event.writeFlag p.runningFlag false, Event.writeFlag p.stopFlag false]
        ).readFlag p.runningFlag = false ∧
      (applyEvents s [Event.writeFlag p.runningFlag false, Event.writeFlag p.stopFlag false]
        ).readFlag p.stopFlag = false := by
    intro s
    cases hr : p.runningFlag <;> cases hs : p.stopFlag <;>
      simp [applyEvents, applyEvent, State.writeFlag, State.readFlag]
  refine ⟨?_, hexit, ?_⟩
  · unfold pulseTask
    rw [hloop]
    simp only [initialDelayEvents, pulseEvents, exitEvents, hlow]
  · intro s
    have happ : applyEvents s (pulseTask p stopRead) =
        applyEvents (applyEvents s (initialDelayEvents p ++ [.writeFlag p.runningFlag true] ++
          pulseLoop p stopRead p.n_pulses.toNat 0))
          [Event.writeFlag p.runningFlag false, Event.writeFlag p.stopFlag false] := by
      simp only [applyEvents, pulseTask, exitEvents, List.foldl_append]
    rw [happ]
    exact hexit _

/-- Witness for `pulseTask_trace`: the Generator snapshot of the initial
configuration (pin 26, width 100, period 200, 10 pulses, delay 50) with the stop
flag first read as set at the check of iteration 3. -/
theorem pulseTask_trace_witness :
    pulseTask (genSnapshot initState) (fun i => decide (3 ≤ i)) =
      [Event.log "Pin 26: waiting initial delay 50 ms", Event.delay 50,
        Event.writeFlag .pulsing_gen true,
        Event.digitalWrite 26 true, Event.delay 100, Event.digitalWrite 26 false, Event.delay 100,
        Event.digitalWrite 26 true, Event.delay 100, Event.digitalWrite 26 false, Event.delay 100,
        Event.digitalWrite 26 true, Event.delay 100, Event.digitalWrite 26 false, Event.delay 100,
        Event.writeFlag .pulsing_gen false, Event.writeFlag .stop_gen false] :=
  (pulseTask_trace (genSnapshot initState) (fun i => decide (3 ≤ i)) 3
    (by decide)
    (by intro j hj; simp only [decide_eq_false_iff_not]; omega)
    (Or.inl (by decide))).1.trans (by decide)

/-! ## The step machine agrees with the whole-run trace -/

theorem runSteps_finish (p : PulseParams) (stopRead : Nat → Bool) (fuel : Nat) :
    runSteps p stopRead (fuel + 1) .finish = exitEvents p := by
  simp [runSteps, taskStep, exitEvents]

/-- From the head of the loop with `remaining` iterations left, enough steps
give the events of the rest of the loop followed by the two final writes. -/
theorem runSteps_loopTest (p : PulseParams) (stopRead : Nat → Bool) :
    ∀ (remaining i fuel : Nat), i + remaining = p.n_pulses.toNat →
      3 * remaining + 2 ≤ fuel →
      runSteps p stopRead fuel (.loopTest i) = pulseLoop p stopRead remaining i ++ exitEvents p := by
  intro remaining
  induction remaining with
  | zero =>
    intro i fuel hi hfuel
    obtain ⟨f, rfl⟩ : ∃ f, fuel = f + 2 := ⟨fuel - 2, by omega⟩
    have hnot : ¬ ((i : Int) < p.n_pulses) := by omega
    simp [runSteps, taskStep, hnot, pulseLoop, exitEvents]
  | succ r ih =>
    intro i fuel hi hfuel
    obtain ⟨f, rfl⟩ : ∃ f, fuel = f + 3 := ⟨fuel - 3, by omega⟩
    have hlt : (i : Int) < p.n_pulses := by omega
    have hrec := ih (i + 1) f (by omega) (by omega)
    have hrec' := ih (i + 1) (f + 1) (by omega) (by omega)
    cases hstop : stopRead i with
    | true => simp [runSteps, taskStep, hlt, stopSeen, hstop, pulseLoop, exitEvents]
    | false =>
      by_cases hlow : lowDelay p > 0
      · simp [runSteps, taskStep, hlt, stopSeen, hstop, pulseLoop, pulseEvents, hlow, hrec]
      · have e : runSteps p stopRead (f + 3) (.loopTest i) =
            [Event.digitalWrite p.pin true, Event.delay p.width, Event.digitalWrite p.pin false] ++
              runSteps p stopRead (f + 1) (.loopTest (i + 1)) := by
          simp [runSteps, taskStep, hlt, stopSeen, hstop, hlow]
        rw [e, hrec']
        simp [pulseLoop, pulseEvents, hstop, hlow]

/-- Run step by step from its creation, with the stop flag reading `stopRead i`
at the check of iteration `i`, a task produces the events of `pulseTask` within
`3 * n_pulses + 5` steps, and more fuel changes nothing. -/
theorem runSteps_eq_pulseTask (p : PulseParams) (stopRead : Nat → Bool) (fuel : Nat)
    (hfuel : 3 * p.n_pulses.toNat + 5 ≤ fuel) :
    runSteps p stopRead fuel .entry = pulseTask p stopRead := by
  obtain ⟨f, rfl⟩ : ∃ f, fuel = f + 3 := ⟨fuel - 3, by omega⟩
  have h1 := runSteps_loopTest p stopRead p.n_pulses.toNat 0 f (by omega) (by omega)
  have h2 := runSteps_loopTest p stopRead p.n_pulses.toNat 0 (f + 1) (by omega) (by omega)
  by_cases hd : p.startDelay > 0
  · simp [runSteps, taskStep, hd, pulseTask, initialDelayEvents, h1]
  · have e : runSteps p stopRead (f + 3) .entry =
        [Event.writeFlag p.runningFlag true] ++ runSteps p stopRead (f + 1) (.loopTest 0) := by
      simp [runSteps, taskStep, hd]
    rw [e, h2]
    simp [pulseTask, initialDelayEvents, hd]

/-! ## Width and period stay positive, so `period - width` never overflows -/

theorem getD_bounds (o : Option Int) (x : Int) (hx : 0 < x ∧ x ≤ 2147483647)
    (hpos : ∀ v, o = some v → 0 < v) (hmax : ∀ v, o = some v → v ≤ 2147483647) :
    0 < o.getD x ∧ o.getD x ≤ 2147483647 := by
  cases o with
  | none => exact hx
  | some v => exact ⟨hpos v rfl, hmax v rfl⟩

/-- The `/set` handler keeps width and period positive `int` values, whether it
accepts the request or not. -/
theorem setHandler_configOk (s : State) (r : SetRequest) (hs : s.configOk)
    (hr : r.inIntRange) : (setHandler s r).state.configOk := by
  have hw : (setHandler s r).state.pulse_width = (setHandler s r).state.getField .width := rfl
  have hp : (setHandler s r).state.pulse_period = (setHandler s r).state.getField .period := rfl
  unfold State.configOk
  rw [hw, hp, setHandler_eq]
  cases hfi : r.firstInvalid with
  | none =>
    have hpos := (firstInvalid_eq_none_iff r).1 hfi
    simp only [setFinish_getField, apply_getField]
    exact ⟨getD_bounds _ _ hs.1 (hpos .width) (hr .width),
      getD_bounds _ _ hs.2 (hpos .period) (hr .period)⟩
  | some f =>
    obtain ⟨_, hbefore⟩ := firstInvalid_some r f hfi
    simp only [applyBefore_getField]
    constructor
    · split_ifs with h
      · exact getD_bounds _ _ hs.1 ((isInvalid_eq_false _).1 (hbefore .width h)) (hr .width)
      · exact hs.1
    · split_ifs with h
      · exact getD_bounds _ _ hs.2 ((isInvalid_eq_false _).1 (hbefore .period h)) (hr .period)
      · exact hs.2

/-- For globals with positive `int` width and period, `period - width` of both
snapshots fits an `int`. -/
theorem snapshot_fits (s : State) (hs : s.configOk) :
    (-2147483648 ≤ (myoSnapshot s).period - (myoSnapshot s).width ∧
      (myoSnapshot s).period - (myoSnapshot s).width ≤ 2147483647) ∧
    (-2147483648 ≤ (genSnapshot s).period - (genSnapshot s).width ∧
      (genSnapshot s).period - (genSnapshot s).width ≤ 2147483647) := by
  obtain ⟨⟨h1, h2⟩, h3, h4⟩ := hs
  simp only [myoSnapshot, genSnapshot]
  omega


end PulseGen
